import Mathlib

/-!
Verification of the universal-time-sync synchronization engine.

The TypeScript sources (`timeMath.ts`, `filterEngine.ts`, `slewEngine.ts`,
`syncedClock.ts`) are shallowly embedded below: numbers become real numbers,
the mutable class fields become explicit state records, and each method
becomes a state-passing function.  Host-clock reads (`Date.now()`,
`performance.now()`) are passed in as explicit arguments at each call.
-/

/-! ## timeMath.ts -/

noncomputable def calculateRTT (t0 t1 t2 t3 : ℝ) : ℝ :=
  (t3 - t0) - (t2 - t1)

noncomputable def calculateOffset (t0 t1 t2 t3 : ℝ) : ℝ :=
  ((t1 - t0) + (t2 - t3)) / 2

noncomputable def calculateMean (values : List ℝ) : ℝ :=
  if values.length = 0 then 0 else values.sum / values.length

noncomputable def calculateStdDev (values : List ℝ) : ℝ :=
  if values.length = 0 then 0
  else
    Real.sqrt ((values.map (fun v => (v - calculateMean values) ^ 2)).sum / values.length)

/-! ## types.ts -/

structure SyncSample where
  rtt : ℝ
  offset : ℝ
  timestamp : ℝ

structure PingPayload where
  t0 : ℝ
  id : String

structure PongPayload where
  t0 : ℝ
  t1 : ℝ
  t2 : ℝ
  t3 : ℝ
  id : String

open scoped Classical

/-- Configuration record for the orchestrator (`SyncConfig` in `types.ts`,
with the two optional thresholds that `syncedClock.ts` reads).  The
`historySize` field is the already-validated capacity; raw constructor
validation is modelled by `FilterEngine.mk` below. -/
structure SyncConfig where
  syncIntervalMs : ℝ
  historySize : ℕ
  outlierThreshold : ℝ
  timeSlewRate : ℝ
  driftWarningThreshold : Option ℝ
  sleepDetectionThresholdMs : Option ℝ

/-! ## filterEngine.ts

The class fields `_historySize`/`_outlierThreshold` are passed as
parameters, the mutable `_history` array as an explicit list. -/

/-- `FilterEngine` constructor: validates its arguments exactly as the source
(`!Number.isInteger(historySize) || historySize < 1` and
`typeof outlierThreshold !== 'number' || outlierThreshold <= 0`; the
`typeof` test is vacuous once the argument is a real number) and returns the
validated `(capacity, threshold)` pair.  `RangeError` is modelled as
`Except.error` with the source's message. -/
noncomputable def FilterEngine.mk (historySize outlierThreshold : ℝ) :
    Except String (ℕ × ℝ) :=
  if ¬(∃ n : ℤ, (n : ℝ) = historySize) ∨ historySize < 1 then
    Except.error "historySize must be a positive integer"
  else if outlierThreshold ≤ 0 then
    Except.error "outlierThreshold must be a positive number"
  else
    Except.ok (Nat.floor historySize, outlierThreshold)

/-- `FilterEngine.push`: append, then shift the oldest entry when the buffer
exceeds `historySize`. -/
def FilterEngine.push (historySize : ℕ) (history : List SyncSample)
    (sample : SyncSample) : List SyncSample :=
  let h := history ++ [sample]
  if historySize < h.length then h.tail else h

/-- `FilterEngine.flush`: empties the history (`this._history.length = 0`). -/
def FilterEngine.flush (_history : List SyncSample) : List SyncSample := []

/-- `FilterEngine.getOptimalOffset`, translated clause by clause from the
source. -/
noncomputable def FilterEngine.getOptimalOffset (outlierThreshold : ℝ)
    (history : List SyncSample) : ℝ :=
  if history.length = 0 then 0
  else
    let rtts := history.map SyncSample.rtt
    let meanRtt := calculateMean rtts
    let stddevRtt := calculateStdDev rtts
    let filtered := history.filter fun s =>
      decide (stddevRtt = 0 ∨ |s.rtt - meanRtt| ≤ outlierThreshold * stddevRtt)
    let offsets := filtered.map SyncSample.offset
    let fallbackMean := calculateMean (history.map SyncSample.offset)
    if 0 < offsets.length then calculateMean offsets else fallbackMean

/-! ## slewEngine.ts -/

def CONVERGENCE_THRESHOLD_MS : ℝ := 0.001

/-- The mutable fields of one `SlewEngine` instance.  The source initialises
`_lastNow` to `-Infinity`; ℝ has no `-Infinity`, so `lastNow` is an
`Option ℝ` with `none` standing for the initial `-Infinity` (a floor that is
never the maximum). -/
structure SlewState where
  slewRate : ℝ
  epochRealTime : ℝ
  epochSlewedTime : ℝ
  targetOffset : ℝ
  scaleFactor : ℝ
  lastNow : Option ℝ

/-- `SlewEngine` constructor (`t` is the `performance.now()` reading taken
there). -/
def SlewEngine.init (slewRate t : ℝ) : SlewState :=
  { slewRate := slewRate
    epochRealTime := t
    epochSlewedTime := t
    targetOffset := 0
    scaleFactor := 1
    lastNow := none }

/-- `SlewEngine._computeSlewed`. -/
def SlewEngine.computeSlewed (s : SlewState) (realNow : ℝ) : ℝ :=
  s.epochSlewedTime + (realNow - s.epochRealTime) * s.scaleFactor

/-- `SlewEngine._recomputeScaleFactor`; returns the new scale factor read off
the (already re-anchored) state. -/
noncomputable def SlewEngine.recomputeScaleFactor (s : SlewState) (realNow : ℝ) : ℝ :=
  let target := realNow + s.targetOffset
  let gap := target - s.epochSlewedTime
  if |gap| < CONVERGENCE_THRESHOLD_MS then 1
  else if 0 < gap then 1 + s.slewRate
  else 1 - s.slewRate

/-- `SlewEngine.setTargetOffset`. -/
noncomputable def SlewEngine.setTargetOffset (s : SlewState)
    (realNow newTargetOffset : ℝ) : SlewState :=
  let s1 := { s with
    epochSlewedTime := SlewEngine.computeSlewed s realNow
    epochRealTime := realNow
    targetOffset := newTargetOffset }
  { s1 with scaleFactor := SlewEngine.recomputeScaleFactor s1 realNow }

/-- `SlewEngine.now`: returns the value handed to the caller together with
the updated state. -/
noncomputable def SlewEngine.now (s : SlewState) (realNow : ℝ) : ℝ × SlewState :=
  let slewed := SlewEngine.computeSlewed s realNow
  let target := realNow + s.targetOffset
  let p : ℝ × SlewState :=
    if (1 < s.scaleFactor ∧ target ≤ slewed) ∨ (s.scaleFactor < 1 ∧ slewed ≤ target) then
      (target, { s with
        epochSlewedTime := target
        epochRealTime := realNow
        scaleFactor := 1 })
    else
      (slewed, s)
  let result := match p.2.lastNow with
    | none => p.1
    | some l => max p.1 l
  (result, { p.2 with lastNow := some result })

/-- One externally observable call on a `SlewEngine` instance, tagged with
the `performance.now()` reading at that call. -/
inductive SlewOp where
  | set (real off : ℝ)
  | tick (real : ℝ)

def SlewOp.time : SlewOp → ℝ
  | SlewOp.set r _ => r
  | SlewOp.tick r => r

noncomputable def SlewEngine.applyOp (s : SlewState) : SlewOp → SlewState
  | SlewOp.set r x => SlewEngine.setTargetOffset s r x
  | SlewOp.tick r => (SlewEngine.now s r).2

/-- The values returned by the `now()` calls of an operation sequence. -/
noncomputable def SlewEngine.outputs (s : SlewState) : List SlewOp → List ℝ
  | [] => []
  | SlewOp.set r x :: ops => SlewEngine.outputs (SlewEngine.setTargetOffset s r x) ops
  | SlewOp.tick r :: ops =>
      (SlewEngine.now s r).1 :: SlewEngine.outputs (SlewEngine.now s r).2 ops

/-! ## syncedClock.ts -/

inductive SyncState where
  | UNSYNCED
  | SYNCING
  | SYNCED
deriving DecidableEq

def SyncState.rank : SyncState → ℕ
  | SyncState.UNSYNCED => 0
  | SyncState.SYNCING => 1
  | SyncState.SYNCED => 2

/-- The mutable fields of one `SyncedClock` instance (`_intervalId` is
modelled by the boolean `running`). -/
structure ClockState where
  offset : ℝ
  targetOffset : ℝ
  lastNow : ℝ
  state : SyncState
  history : List SyncSample
  msgCounter : ℕ
  lastIntervalFire : ℝ
  running : Bool
  slew : SlewState

/-- `SyncedClock` constructor state (`tPerf` is the `performance.now()`
reading taken when the inner `SlewEngine` is built with its default rate
`0.05`). -/
def SyncedClock.init (tPerf : ℝ) : ClockState :=
  { offset := 0
    targetOffset := 0
    lastNow := 0
    state := SyncState.UNSYNCED
    history := []
    msgCounter := 0
    lastIntervalFire := 0
    running := false
    slew := SlewEngine.init 0.05 tPerf }

/-- `SyncedClock.now` (`real` is the `Date.now()` reading): returns the
value handed to the caller together with the updated state. -/
noncomputable def SyncedClock.now (cfg : SyncConfig) (s : ClockState) (real : ℝ) :
    ℝ × ClockState :=
  let d := s.targetOffset - s.offset
  let slew := min |d| cfg.timeSlewRate * Real.sign d
  let offset := s.offset + slew
  let candidate := real + offset
  if candidate ≤ s.lastNow then (s.lastNow, { s with offset := offset })
  else (candidate, { s with offset := offset, lastNow := candidate })

/-- `SyncedClock._applySlew`. -/
noncomputable def SyncedClock.applySlew (cfg : SyncConfig) (s : ClockState) : ClockState :=
  let diff := s.targetOffset - s.offset
  let slew := min |diff| cfg.timeSlewRate * Real.sign diff
  { s with offset := s.offset + slew }

/-- `SyncedClock._sendPing` (including the `_transitionState('SYNCING')`
performed when the state is still `UNSYNCED`); returns the updated state and
the dispatched payload. -/
def SyncedClock.sendPing (s : ClockState) (real : ℝ) : ClockState × PingPayload :=
  let counter := s.msgCounter + 1
  let payload : PingPayload := { t0 := real, id := "ping-" ++ toString counter }
  let s1 := { s with msgCounter := counter }
  let s2 :=
    if s1.state = SyncState.UNSYNCED then { s1 with state := SyncState.SYNCING } else s1
  (s2, payload)

/-- The sleep threshold actually used:
`this._config.sleepDetectionThresholdMs ?? this._config.syncIntervalMs * 10`. -/
def SyncedClock.sleepThreshold (cfg : SyncConfig) : ℝ :=
  cfg.sleepDetectionThresholdMs.getD (cfg.syncIntervalMs * 10)

/-- `SyncedClock._checkForSleep`; the second component is the payload of the
`sleep_detected` event when one is emitted. -/
noncomputable def SyncedClock.checkForSleep (cfg : SyncConfig) (s : ClockState)
    (real : ℝ) : ClockState × Option ℝ :=
  let gapMs := real - s.lastIntervalFire
  if SyncedClock.sleepThreshold cfg < gapMs then
    ({ s with history := FilterEngine.flush s.history, lastIntervalFire := real },
      some gapMs)
  else
    ({ s with lastIntervalFire := real }, none)

/-- `SyncedClock._handlePong` (`realWall` is the `Date.now()` reading,
`realPerf` the `performance.now()` reading inside
`SlewEngine.setTargetOffset`); the emitted `sync_success`/`drift_warning`
events carry no state and are not modelled. -/
noncomputable def SyncedClock.handlePong (cfg : SyncConfig) (s : ClockState)
    (p : PongPayload) (realWall realPerf : ℝ) : ClockState :=
  let rtt := calculateRTT p.t0 p.t1 p.t2 p.t3
  let offset := calculateOffset p.t0 p.t1 p.t2 p.t3
  let sample : SyncSample := { rtt := rtt, offset := offset, timestamp := realWall }
  let history := FilterEngine.push cfg.historySize s.history sample
  let targetOffset := FilterEngine.getOptimalOffset cfg.outlierThreshold history
  let slew := SlewEngine.setTargetOffset s.slew realPerf targetOffset
  { s with
    history := history
    targetOffset := targetOffset
    slew := slew
    state := SyncState.SYNCED }

/-- The body of the `setInterval` callback installed by `start()`:
`_checkForSleep(); _applySlew(); _sendPing();` in that order.  `realA` and
`realB` are the two `Date.now()` readings taken inside `_checkForSleep` and
`_sendPing`. -/
noncomputable def SyncedClock.tick (cfg : SyncConfig) (s : ClockState)
    (realA realB : ℝ) : ClockState × Option ℝ × PingPayload :=
  let r1 := SyncedClock.checkForSleep cfg s realA
  let s2 := SyncedClock.applySlew cfg r1.1
  let r3 := SyncedClock.sendPing s2 realB
  (r3.1, (r1.2, r3.2))

/-- `SyncedClock.start`: a no-op when already running; otherwise records the
tick timestamp, dispatches one ping and installs the interval. -/
def SyncedClock.start (s : ClockState) (real : ℝ) : ClockState × Option PingPayload :=
  if s.running then (s, none)
  else
    let s1 := { s with lastIntervalFire := real, running := true }
    let r := SyncedClock.sendPing s1 real
    (r.1, some r.2)

/-- `SyncedClock.stop`. -/
def SyncedClock.stop (s : ClockState) : ClockState :=
  { s with running := false }

/-- One externally observable event on a `SyncedClock` instance, tagged with
the host-clock readings taken while handling it. -/
inductive ClockEv where
  | nowCall (real : ℝ)
  | tick (realA realB : ℝ)
  | pong (p : PongPayload) (realWall realPerf : ℝ)
  | startCall (real : ℝ)
  | stopCall

def ClockEv.isPong : ClockEv → Bool
  | ClockEv.pong _ _ _ => true
  | _ => false

noncomputable def SyncedClock.step (cfg : SyncConfig) (s : ClockState) :
    ClockEv → ClockState
  | ClockEv.nowCall real => (SyncedClock.now cfg s real).2
  | ClockEv.tick a b => (SyncedClock.tick cfg s a b).1
  | ClockEv.pong p w pf => SyncedClock.handlePong cfg s p w pf
  | ClockEv.startCall real => (SyncedClock.start s real).1
  | ClockEv.stopCall => SyncedClock.stop s

noncomputable def SyncedClock.run (cfg : SyncConfig) (s : ClockState)
    (evs : List ClockEv) : ClockState :=
  evs.foldl (SyncedClock.step cfg) s

/-- The values returned by a sequence of `SyncedClock.now` calls at the given
`Date.now()` readings. -/
noncomputable def SyncedClock.nowRun (cfg : SyncConfig) (s : ClockState) :
    List ℝ → List ℝ
  | [] => []
  | r :: rs =>
      (SyncedClock.now cfg s r).1 :: SyncedClock.nowRun cfg (SyncedClock.now cfg s r).2 rs

/-! ## Helper lemmas -/

lemma calculateMean_of_ne_nil (l : List ℝ) (h : l ≠ []) :
    calculateMean l = l.sum / l.length := by
  rw [calculateMean, if_neg]
  simpa using h

lemma calculateStdDev_of_ne_nil (l : List ℝ) (h : l ≠ []) :
    calculateStdDev l =
      Real.sqrt ((l.map (fun v => (v - calculateMean l) ^ 2)).sum / l.length) := by
  rw [calculateStdDev, if_neg]
  simpa using h

/-! ## C5: bounded FIFO history -/

lemma push_foldl_drop (N : ℕ) :
    ∀ xs : List SyncSample,
      xs.foldl (FilterEngine.push N) [] = xs.drop (xs.length - N) := by
  intro xs
  induction xs using List.reverseRecOn with
  | nil => simp
  | append_singleton ys x ih =>
    rw [List.foldl_append, List.foldl_cons, List.foldl_nil, ih]
    rw [FilterEngine.push]
    by_cases hk : ys.length < N
    · have h1 : ys.length - N = 0 := by omega
      have h2 : ys.length + 1 - N = 0 := by omega
      have hlen : (ys.drop (ys.length - N) ++ [x]).length = ys.length + 1 := by
        simp [h1]
      simp [hlen, h1, h2, Nat.not_lt.mpr hk, List.length_append]
    · have hNk : N ≤ ys.length := Nat.not_lt.mp hk
      have hdlen : (ys.drop (ys.length - N)).length = N := by
        rw [List.length_drop]
        omega
      have hcond : N < (ys.drop (ys.length - N) ++ [x]).length := by
        simp [hdlen]
      rw [if_pos hcond]
      rcases Nat.eq_zero_or_pos N with hN0 | hNpos
      · subst hN0
        have hd : ys.drop ys.length = [] := by simp
        have hall : ys.length + 1 - 0 = (ys ++ [x]).length := by simp
        simp [hd, List.drop_eq_nil_of_le]
      · have hne : ys.drop (ys.length - N) ≠ [] := by
          intro hcon
          rw [hcon] at hdlen
          simp at hdlen
          omega
        obtain ⟨a, t, ht⟩ := List.exists_cons_of_ne_nil hne
        have htail : (ys.drop (ys.length - N) ++ [x]).tail
            = (ys.drop (ys.length - N)).tail ++ [x] := by
          rw [ht]
          rfl
        rw [htail, ht, List.tail_cons]
        have hdropsucc : ys.drop (ys.length - N + 1) = t := by
          have := List.tail_drop ys (ys.length - N)
          rw [ht] at this
          simpa using this.symm
        have harith : ys.length - N + 1 = ys.length + 1 - N := by omega
        have hle : ys.length + 1 - N ≤ ys.length := by omega
        have hlen2 : (ys ++ [x]).length - N = ys.length + 1 - N := by simp
        rw [hlen2, List.drop_append_of_le_length hle, ← harith, hdropsucc]

/-- C5: for every capacity `N` and every sequence of pushes starting from the
empty history, the resulting history is exactly the suffix of the pushed
samples of length `min M N` (the most recent ones, in insertion order, the
oldest evicted first); in particular the length never exceeds `N`, and after
`M > N` pushes it is exactly `N`. -/
theorem filterEngine_history_bounded_fifo (N : ℕ) (xs : List SyncSample) :
    xs.foldl (FilterEngine.push N) [] = xs.drop (xs.length - N)
  ∧ (xs.foldl (FilterEngine.push N) []).length = min xs.length N := by
  refine ⟨push_foldl_drop N xs, ?_⟩
  rw [push_foldl_drop N xs, List.length_drop]
  omega

/-! ## C9: constructor validation -/

lemma mk_first_check_iff (h : ℝ) :
    (¬(∃ n : ℤ, (n : ℝ) = h) ∨ h < 1) ↔ ¬(∃ n : ℕ, 0 < n ∧ (n : ℝ) = h) := by
  constructor
  · rintro (hz | hlt) ⟨n, hn, hcast⟩
    · exact hz ⟨(n : ℤ), by exact_mod_cast hcast⟩
    · have h1 : (1 : ℝ) ≤ (n : ℝ) := by exact_mod_cast hn
      rw [hcast] at h1
      linarith
  · intro hnp
    by_contra hcon
    push_neg at hcon
    obtain ⟨⟨z, hz⟩, h1⟩ := hcon
    have hz1 : (1 : ℤ) ≤ z := by
      have : (1 : ℝ) ≤ (z : ℝ) := by rw [hz]; exact h1
      exact_mod_cast this
    refine hnp ⟨z.toNat, by omega, ?_⟩
    rw [← hz]
    exact_mod_cast Int.toNat_of_nonneg (by omega : (0 : ℤ) ≤ z)

/-- C9: `FilterEngine.mk` fails (synchronously, before any engine exists that
a sample could be pushed into) if and only if `historySize` is not a positive
integer or `outlierThreshold` is not a positive number; for valid arguments
it never fails. -/
theorem filterEngine_mk_error_iff (h t : ℝ) :
    (∃ msg, FilterEngine.mk h t = Except.error msg) ↔
      ¬((∃ n : ℕ, 0 < n ∧ (n : ℝ) = h) ∧ 0 < t) := by
  rw [FilterEngine.mk]
  by_cases h1 : ¬(∃ n : ℤ, (n : ℝ) = h) ∨ h < 1
  · rw [if_pos h1]
    simp only [Except.error.injEq, exists_eq']
    constructor
    · intro _ hcon
      exact ((mk_first_check_iff h).mp h1) hcon.1
    · intro _
      trivial
  · rw [if_neg h1]
    by_cases h2 : t ≤ 0
    · rw [if_pos h2]
      simp only [Except.error.injEq, exists_eq']
      constructor
      · intro _ hcon
        linarith [hcon.2]
      · intro _
        trivial
    · rw [if_neg h2]
      constructor
      · rintro ⟨msg, hmsg⟩
        exact absurd hmsg (by simp)
      · intro hcon
        exfalso
        apply hcon
        constructor
        · by_contra hnp
          exact h1 ((mk_first_check_iff h).mpr hnp)
        · linarith [lt_of_not_le h2]

/-! ## C7: sleep detection -/

/-- C7: on a timer tick, when the wall-clock gap since the previous tick
exceeds the sleep threshold (which defaults to `10 × syncIntervalMs` when not
configured), `_checkForSleep` flushes the history and reports exactly one
`sleep_detected` signal carrying that gap; when the gap does not exceed the
threshold it does neither.  In both cases the tick timestamp is recorded. -/
theorem checkForSleep_flush_and_signal (cfg : SyncConfig) (s : ClockState) (real : ℝ) :
    ((SyncedClock.sleepThreshold cfg < real - s.lastIntervalFire
        ∧ (SyncedClock.checkForSleep cfg s real).1.history = []
        ∧ (SyncedClock.checkForSleep cfg s real).2 = some (real - s.lastIntervalFire))
      ∨ (real - s.lastIntervalFire ≤ SyncedClock.sleepThreshold cfg
        ∧ (SyncedClock.checkForSleep cfg s real).1.history = s.history
        ∧ (SyncedClock.checkForSleep cfg s real).2 = none))
  ∧ (SyncedClock.checkForSleep cfg s real).1.lastIntervalFire = real
  ∧ SyncedClock.sleepThreshold { cfg with sleepDetectionThresholdMs := none }
      = cfg.syncIntervalMs * 10 := by
  refine ⟨?_, ?_, rfl⟩
  · by_cases hgt : SyncedClock.sleepThreshold cfg < real - s.lastIntervalFire
    · left
      refine ⟨hgt, ?_, ?_⟩ <;> simp [SyncedClock.checkForSleep, hgt, FilterEngine.flush]
    · right
      refine ⟨le_of_not_lt hgt, ?_, ?_⟩ <;> simp [SyncedClock.checkForSleep, hgt]
  · simp only [SyncedClock.checkForSleep]
    split <;> rfl

/-! ## C6: state machine monotone -/

lemma now_state_eq (cfg : SyncConfig) (s : ClockState) (real : ℝ) :
    (SyncedClock.now cfg s real).2.state = s.state := by
  simp only [SyncedClock.now]
  split <;> rfl

lemma checkForSleep_state_eq (cfg : SyncConfig) (s : ClockState) (real : ℝ) :
    (SyncedClock.checkForSleep cfg s real).1.state = s.state := by
  simp only [SyncedClock.checkForSleep]
  split <;> rfl

lemma applySlew_state_eq (cfg : SyncConfig) (s : ClockState) :
    (SyncedClock.applySlew cfg s).state = s.state := rfl

lemma sendPing_state_eq (s : ClockState) (real : ℝ) :
    (SyncedClock.sendPing s real).1.state =
      if s.state = SyncState.UNSYNCED then SyncState.SYNCING else s.state := by
  simp only [SyncedClock.sendPing]
  split <;> rfl

lemma rank_le_two (st : SyncState) : SyncState.rank st ≤ 2 := by
  cases st <;> simp [SyncState.rank]

lemma sendPing_rank_mono (s : ClockState) (real : ℝ) :
    SyncState.rank s.state ≤ SyncState.rank (SyncedClock.sendPing s real).1.state := by
  rw [sendPing_state_eq]
  split
  · rename_i hu
    rw [hu]
    simp [SyncState.rank]
  · exact le_refl _

lemma step_rank_mono (cfg : SyncConfig) (s : ClockState) (e : ClockEv) :
    SyncState.rank s.state ≤ SyncState.rank (SyncedClock.step cfg s e).state := by
  cases e with
  | nowCall real =>
    rw [SyncedClock.step, now_state_eq]
  | tick a b =>
    rw [SyncedClock.step]
    show SyncState.rank s.state ≤ SyncState.rank (SyncedClock.tick cfg s a b).1.state
    rw [SyncedClock.tick]
    calc SyncState.rank s.state
        = SyncState.rank (SyncedClock.applySlew cfg
            (SyncedClock.checkForSleep cfg s a).1).state := by
          rw [applySlew_state_eq, checkForSleep_state_eq]
      _ ≤ _ := sendPing_rank_mono _ b
  | pong p w pf =>
    rw [SyncedClock.step]
    show SyncState.rank s.state ≤ SyncState.rank (SyncedClock.handlePong cfg s p w pf).state
    have : (SyncedClock.handlePong cfg s p w pf).state = SyncState.SYNCED := rfl
    rw [this]
    exact rank_le_two s.state
  | startCall real =>
    rw [SyncedClock.step]
    show SyncState.rank s.state ≤ SyncState.rank (SyncedClock.start s real).1.state
    simp only [SyncedClock.start]
    split
    · exact le_refl _
    · exact sendPing_rank_mono { s with lastIntervalFire := real, running := true } real
  | stopCall =>
    rw [SyncedClock.step]
    exact le_refl _

lemma run_rank_mono (cfg : SyncConfig) :
    ∀ (evs : List ClockEv) (s : ClockState),
      SyncState.rank s.state ≤ SyncState.rank (SyncedClock.run cfg s evs).state := by
  intro evs
  induction evs with
  | nil => intro s; exact le_refl _
  | cons e evs ih =>
    intro s
    calc SyncState.rank s.state
        ≤ SyncState.rank (SyncedClock.step cfg s e).state := step_rank_mono cfg s e
      _ ≤ _ := ih (SyncedClock.step cfg s e)

lemma state_of_two_le_rank (st : SyncState) (h : 2 ≤ SyncState.rank st) :
    st = SyncState.SYNCED := by
  cases st <;> simp [SyncState.rank] at h ⊢

/-- C6: the synchronization state only moves forward along
`UNSYNCED → SYNCING → SYNCED`: a ping dispatched in `UNSYNCED` enters
`SYNCING` (and pings in the other states leave the state alone), a processed
pong enters `SYNCED`, along any event sequence the state's rank never
decreases, and once `SYNCED` no sequence of further events (pings, pongs,
sleep-checked ticks, start/stop) ever leaves `SYNCED`. -/
theorem syncedClock_state_monotone (cfg : SyncConfig) (s : ClockState)
    (evs : List ClockEv) (t : ℝ) (p : PongPayload) (w pf : ℝ) :
    (SyncedClock.sendPing { s with state := SyncState.UNSYNCED } t).1.state
        = SyncState.SYNCING
  ∧ (SyncedClock.sendPing { s with state := SyncState.SYNCING } t).1.state
        = SyncState.SYNCING
  ∧ (SyncedClock.sendPing { s with state := SyncState.SYNCED } t).1.state
        = SyncState.SYNCED
  ∧ (SyncedClock.handlePong cfg s p w pf).state = SyncState.SYNCED
  ∧ SyncState.rank s.state ≤ SyncState.rank (SyncedClock.run cfg s evs).state
  ∧ (SyncedClock.run cfg { s with state := SyncState.SYNCED } evs).state
        = SyncState.SYNCED := by
  refine ⟨?_, ?_, ?_, rfl, run_rank_mono cfg evs s, ?_⟩
  · rw [sendPing_state_eq]
    rfl
  · rw [sendPing_state_eq]
    rfl
  · rw [sendPing_state_eq]
    rfl
  · apply state_of_two_le_rank
    have := run_rank_mono cfg evs { s with state := SyncState.SYNCED }
    simpa [SyncState.rank] using this

/-! ## C2: wall-clock now() -/

lemma now_offset_eq (cfg : SyncConfig) (s : ClockState) (real : ℝ) :
    (SyncedClock.now cfg s real).2.offset =
      s.offset + min |s.targetOffset - s.offset| cfg.timeSlewRate
        * Real.sign (s.targetOffset - s.offset) := by
  simp only [SyncedClock.now]
  split <;> rfl

lemma now_lastNow_eq_fst (cfg : SyncConfig) (s : ClockState) (real : ℝ) :
    (SyncedClock.now cfg s real).2.lastNow = (SyncedClock.now cfg s real).1 := by
  simp only [SyncedClock.now]
  split <;> rfl

lemma now_fst_eq_max (cfg : SyncConfig) (s : ClockState) (real : ℝ) :
    (SyncedClock.now cfg s real).1 =
      max (real + (SyncedClock.now cfg s real).2.offset) s.lastNow := by
  rw [now_offset_eq]
  simp only [SyncedClock.now]
  split
  · rename_i hle
    exact (max_eq_right hle).symm
  · rename_i hgt
    exact (max_eq_left (le_of_not_le hgt)).symm

lemma now_fst_ge_lastNow (cfg : SyncConfig) (s : ClockState) (real : ℝ) :
    s.lastNow ≤ (SyncedClock.now cfg s real).1 := by
  rw [now_fst_eq_max]
  exact le_max_right _ _

lemma nowRun_chain (cfg : SyncConfig) :
    ∀ (rs : List ℝ) (s : ClockState),
      (SyncedClock.nowRun cfg s rs).Chain' (· ≤ ·) ∧
      ∀ o ∈ SyncedClock.nowRun cfg s rs, s.lastNow ≤ o := by
  intro rs
  induction rs with
  | nil =>
    intro s
    simp [SyncedClock.nowRun]
  | cons r rs ih =>
    intro s
    have hmem : ∀ o ∈ SyncedClock.nowRun cfg (SyncedClock.now cfg s r).2 rs,
        (SyncedClock.now cfg s r).1 ≤ o := by
      intro o ho
      have := (ih (SyncedClock.now cfg s r).2).2 o ho
      rwa [now_lastNow_eq_fst] at this
    constructor
    · rw [SyncedClock.nowRun, List.chain'_cons']
      refine ⟨?_, (ih (SyncedClock.now cfg s r).2).1⟩
      intro b hb
      exact hmem b (List.mem_of_mem_head? hb)
    · intro o ho
      rw [SyncedClock.nowRun, List.mem_cons] at ho
      rcases ho with rfl | ho
      · exact now_fst_ge_lastNow cfg s r
      · exact le_trans (now_fst_ge_lastNow cfg s r) (hmem o ho)

/-- C2: each `SyncedClock.now` call first steps the running offset toward
`targetOffset` by exactly `min(|targetOffset − offset|, timeSlewRate)` in the
direction of the difference, then returns `max(realNow + offset, lastNow)`,
remembering that value as the new `lastNow`; consequently for any sequence of
calls with non-decreasing `Date.now()` readings the returned values never
decrease. -/
theorem syncedClock_now_step_and_monotone (cfg : SyncConfig) (s : ClockState)
    (real : ℝ) (reals : List ℝ) (hreals : reals.Chain' (· ≤ ·)) :
    ((SyncedClock.now cfg s real).2.offset =
      s.offset + min |s.targetOffset - s.offset| cfg.timeSlewRate
        * Real.sign (s.targetOffset - s.offset))
  ∧ ((SyncedClock.now cfg s real).1 =
      max (real + (SyncedClock.now cfg s real).2.offset) s.lastNow)
  ∧ ((SyncedClock.now cfg s real).2.lastNow = (SyncedClock.now cfg s real).1)
  ∧ (SyncedClock.nowRun cfg s reals).Chain' (· ≤ ·) :=
  ⟨now_offset_eq cfg s real, now_fst_eq_max cfg s real,
    now_lastNow_eq_fst cfg s real, (nowRun_chain cfg reals s).1⟩

/-- Shared concrete configuration used by the witnesses below. -/
noncomputable def cfgW : SyncConfig :=
  { syncIntervalMs := 1000
    historySize := 10
    outlierThreshold := 2
    timeSlewRate := 5
    driftWarningThreshold := none
    sleepDetectionThresholdMs := none }

/-- Witness for C2 at the freshly constructed clock, one `now` call at time
`0`, and the call sequence at times `0, 1`. -/
theorem syncedClock_now_step_and_monotone_witness :
    List.Chain' (· ≤ ·) [(0 : ℝ), 1]
  ∧ (((SyncedClock.now cfgW (SyncedClock.init 0) 0).2.offset =
      (SyncedClock.init 0).offset +
        min |(SyncedClock.init 0).targetOffset - (SyncedClock.init 0).offset|
          cfgW.timeSlewRate
          * Real.sign ((SyncedClock.init 0).targetOffset - (SyncedClock.init 0).offset))
    ∧ ((SyncedClock.now cfgW (SyncedClock.init 0) 0).1 =
        max ((0 : ℝ) + (SyncedClock.now cfgW (SyncedClock.init 0) 0).2.offset)
          (SyncedClock.init 0).lastNow)
    ∧ ((SyncedClock.now cfgW (SyncedClock.init 0) 0).2.lastNow =
        (SyncedClock.now cfgW (SyncedClock.init 0) 0).1)
    ∧ (SyncedClock.nowRun cfgW (SyncedClock.init 0) [(0 : ℝ), 1]).Chain' (· ≤ ·)) := by
  have hch : List.Chain' (· ≤ ·) [(0 : ℝ), 1] := by
    simp [List.chain'_cons, zero_le_one]
  exact ⟨hch, syncedClock_now_step_and_monotone cfgW (SyncedClock.init 0) 0 [0, 1] hch⟩

/-! ## C3: continuous clock monotone -/

lemma setTargetOffset_lastNow (s : SlewState) (r x : ℝ) :
    (SlewEngine.setTargetOffset s r x).lastNow = s.lastNow := rfl

lemma slewNow_lastNow_eq_fst (s : SlewState) (r : ℝ) :
    (SlewEngine.now s r).2.lastNow = some (SlewEngine.now s r).1 := rfl

lemma slewNow_fst_ge (s : SlewState) (l : ℝ) (h : s.lastNow = some l) (r : ℝ) :
    l ≤ (SlewEngine.now s r).1 := by
  by_cases hc : (1 < s.scaleFactor ∧ r + s.targetOffset ≤ SlewEngine.computeSlewed s r)
      ∨ (s.scaleFactor < 1 ∧ SlewEngine.computeSlewed s r ≤ r + s.targetOffset)
  · simp only [SlewEngine.now, if_pos hc, h]
    exact le_max_right _ _
  · simp only [SlewEngine.now, if_neg hc, h]
    exact le_max_right _ _

lemma slew_outputs_mono :
    ∀ (ops : List SlewOp) (s : SlewState),
      (SlewEngine.outputs s ops).Chain' (· ≤ ·) ∧
      ∀ l, s.lastNow = some l → ∀ o ∈ SlewEngine.outputs s ops, l ≤ o := by
  intro ops
  induction ops with
  | nil =>
    intro s
    simp [SlewEngine.outputs]
  | cons op ops ih =>
    intro s
    cases op with
    | set r x =>
      rw [SlewEngine.outputs]
      refine ⟨(ih _).1, ?_⟩
      intro l hl o ho
      exact (ih _).2 l (by rw [setTargetOffset_lastNow]; exact hl) o ho
    | tick r =>
      rw [SlewEngine.outputs]
      have hmem : ∀ o ∈ SlewEngine.outputs (SlewEngine.now s r).2 ops,
          (SlewEngine.now s r).1 ≤ o := by
        intro o ho
        exact (ih _).2 _ (slewNow_lastNow_eq_fst s r) o ho
      constructor
      · rw [List.chain'_cons']
        refine ⟨?_, (ih _).1⟩
        intro b hb
        exact hmem b (List.mem_of_mem_head? hb)
      · intro l hl o ho
        rw [List.mem_cons] at ho
        rcases ho with rfl | ho
        · exact slewNow_fst_ge s l hl r
        · exact le_trans (slewNow_fst_ge s l hl r) (hmem o ho)

/-- C3: for a `SlewEngine` instance as constructed (any slew rate, any
construction instant) and any interleaving of `setTargetOffset` and `now`
calls whose `performance.now()` readings are non-decreasing, the sequence of
values returned by `now()` is non-decreasing. -/
theorem slewEngine_now_monotone (rate t0 : ℝ) (ops : List SlewOp)
    (htimes : (ops.map SlewOp.time).Chain' (· ≤ ·)) :
    (SlewEngine.outputs (SlewEngine.init rate t0) ops).Chain' (· ≤ ·) :=
  (slew_outputs_mono ops (SlewEngine.init rate t0)).1

/-- Witness for C3: a fresh engine with rate `0.05` built at time `0`, a
target change to `−100` at time `1`, and `now()` calls at times `2` and `3`. -/
theorem slewEngine_now_monotone_witness :
    (([SlewOp.set 1 (-100), SlewOp.tick 2, SlewOp.tick 3].map SlewOp.time).Chain'
        (· ≤ ·))
  ∧ (SlewEngine.outputs (SlewEngine.init 0.05 0)
      [SlewOp.set 1 (-100), SlewOp.tick 2, SlewOp.tick 3]).Chain' (· ≤ ·) := by
  have hch : (([SlewOp.set 1 (-100), SlewOp.tick 2, SlewOp.tick 3].map SlewOp.time).Chain'
      (· ≤ ·)) := by
    simp only [List.map_cons, List.map_nil, SlewOp.time, List.chain'_cons,
      List.chain'_singleton, and_true]
    norm_num
  exact ⟨hch, slewEngine_now_monotone 0.05 0 _ hch⟩

/-! ## C4: scale factor -/

lemma setTargetOffset_scaleFactor (s : SlewState) (r x : ℝ) :
    (SlewEngine.setTargetOffset s r x).scaleFactor =
      if |(r + x) - SlewEngine.computeSlewed s r| < CONVERGENCE_THRESHOLD_MS then 1
      else if 0 < (r + x) - SlewEngine.computeSlewed s r then 1 + s.slewRate
      else 1 - s.slewRate := rfl

lemma setTargetOffset_slewRate (s : SlewState) (r x : ℝ) :
    (SlewEngine.setTargetOffset s r x).slewRate = s.slewRate := rfl

lemma slewNow_slewRate (s : SlewState) (r : ℝ) :
    (SlewEngine.now s r).2.slewRate = s.slewRate := by
  simp only [SlewEngine.now]
  split <;> rfl

lemma slewNow_scaleFactor (s : SlewState) (r : ℝ) :
    (SlewEngine.now s r).2.scaleFactor = 1 ∨
      (SlewEngine.now s r).2.scaleFactor = s.scaleFactor := by
  simp only [SlewEngine.now]
  split
  · left; rfl
  · right; rfl

lemma slew_applyOp_inv (rate : ℝ) (s : SlewState) (op : SlewOp)
    (hr : s.slewRate = rate)
    (hs : s.scaleFactor = 1 - rate ∨ s.scaleFactor = 1 ∨ s.scaleFactor = 1 + rate) :
    (SlewEngine.applyOp s op).slewRate = rate ∧
      ((SlewEngine.applyOp s op).scaleFactor = 1 - rate ∨
        (SlewEngine.applyOp s op).scaleFactor = 1 ∨
        (SlewEngine.applyOp s op).scaleFactor = 1 + rate) := by
  cases op with
  | set r x =>
    refine ⟨by rw [SlewEngine.applyOp, setTargetOffset_slewRate, hr], ?_⟩
    rw [SlewEngine.applyOp, setTargetOffset_scaleFactor, hr]
    split
    · right; left; rfl
    · split
      · right; right; rfl
      · left; rfl
  | tick r =>
    refine ⟨by rw [SlewEngine.applyOp, slewNow_slewRate, hr], ?_⟩
    rcases slewNow_scaleFactor s r with h1 | h2
    · rw [SlewEngine.applyOp] at *
      rw [h1]
      right; left; rfl
    · rw [SlewEngine.applyOp] at *
      rw [h2]
      exact hs

lemma slew_runOps_inv (rate : ℝ) :
    ∀ (ops : List SlewOp) (s : SlewState),
      s.slewRate = rate →
      (s.scaleFactor = 1 - rate ∨ s.scaleFactor = 1 ∨ s.scaleFactor = 1 + rate) →
      (ops.foldl SlewEngine.applyOp s).slewRate = rate ∧
        ((ops.foldl SlewEngine.applyOp s).scaleFactor = 1 - rate ∨
          (ops.foldl SlewEngine.applyOp s).scaleFactor = 1 ∨
          (ops.foldl SlewEngine.applyOp s).scaleFactor = 1 + rate) := by
  intro ops
  induction ops with
  | nil =>
    intro s hr hs
    exact ⟨hr, hs⟩
  | cons op ops ih =>
    intro s hr hs
    rw [List.foldl_cons]
    obtain ⟨hr', hs'⟩ := slew_applyOp_inv rate s op hr hs
    exact ih (SlewEngine.applyOp s op) hr' hs'

/-- C4: after every `setTargetOffset(newOffset)` call the scale factor is
determined by `gap = (realNow + newOffset) − slewed-time-at-the-call`: `1`
when `|gap| < 0.001` ms, else `1 + slewRate` when `gap > 0`, else
`1 − slewRate`; and in every state reachable from construction the scale
factor is one of `{1 − rate, 1, 1 + rate}`. -/
theorem slewEngine_scaleFactor_discrete (rate t0 realNow newOffset : ℝ)
    (s : SlewState) (ops : List SlewOp) :
    ((SlewEngine.setTargetOffset s realNow newOffset).scaleFactor =
      if |(realNow + newOffset) - SlewEngine.computeSlewed s realNow|
          < CONVERGENCE_THRESHOLD_MS then 1
      else if 0 < (realNow + newOffset) - SlewEngine.computeSlewed s realNow then
        1 + s.slewRate
      else 1 - s.slewRate)
  ∧ (ops.foldl SlewEngine.applyOp (SlewEngine.init rate t0)).scaleFactor
      ∈ ({1 - rate, 1, 1 + rate} : Set ℝ) := by
  refine ⟨setTargetOffset_scaleFactor s realNow newOffset, ?_⟩
  have := (slew_runOps_inv rate ops (SlewEngine.init rate t0) rfl (by right; left; rfl)).2
  simpa [Set.mem_insert_iff] using this

/-! ## C10: before the first pong the wall clock is the raw clock -/

/-- The invariant maintained while no pong has been processed. -/
def NoPongInv (s : ClockState) : Prop :=
  s.offset = 0 ∧ s.targetOffset = 0 ∧ s.state ≠ SyncState.SYNCED

lemma slewTerm_zero (cfg : SyncConfig) (s : ClockState)
    (h : s.targetOffset - s.offset = 0) :
    min |s.targetOffset - s.offset| cfg.timeSlewRate
      * Real.sign (s.targetOffset - s.offset) = 0 := by
  rw [h, Real.sign_zero, mul_zero]

lemma now_target_eq (cfg : SyncConfig) (s : ClockState) (real : ℝ) :
    (SyncedClock.now cfg s real).2.targetOffset = s.targetOffset := by
  simp only [SyncedClock.now]
  split <;> rfl

lemma now_inv (cfg : SyncConfig) (s : ClockState) (real : ℝ) (h : NoPongInv s) :
    NoPongInv (SyncedClock.now cfg s real).2 := by
  obtain ⟨h0, ht, hs⟩ := h
  refine ⟨?_, ?_, ?_⟩
  · rw [now_offset_eq, slewTerm_zero cfg s (by rw [h0, ht]; ring), add_zero, h0]
  · rw [now_target_eq, ht]
  · rw [now_state_eq]
    exact hs

lemma applySlew_inv (cfg : SyncConfig) (s : ClockState) (h : NoPongInv s) :
    NoPongInv (SyncedClock.applySlew cfg s) := by
  obtain ⟨h0, ht, hs⟩ := h
  refine ⟨?_, ht, hs⟩
  show s.offset + min |s.targetOffset - s.offset| cfg.timeSlewRate
      * Real.sign (s.targetOffset - s.offset) = 0
  rw [slewTerm_zero cfg s (by rw [h0, ht]; ring), add_zero, h0]

lemma sendPing_offset_eq (s : ClockState) (real : ℝ) :
    (SyncedClock.sendPing s real).1.offset = s.offset := by
  simp only [SyncedClock.sendPing]
  split <;> rfl

lemma sendPing_target_eq (s : ClockState) (real : ℝ) :
    (SyncedClock.sendPing s real).1.targetOffset = s.targetOffset := by
  simp only [SyncedClock.sendPing]
  split <;> rfl

lemma sendPing_inv (s : ClockState) (real : ℝ) (h : NoPongInv s) :
    NoPongInv (SyncedClock.sendPing s real).1 := by
  obtain ⟨h0, ht, hs⟩ := h
  refine ⟨by rw [sendPing_offset_eq, h0], by rw [sendPing_target_eq, ht], ?_⟩
  rw [sendPing_state_eq]
  split
  · intro hcon
    exact SyncState.noConfusion hcon
  · exact hs

lemma checkForSleep_offset_eq (cfg : SyncConfig) (s : ClockState) (real : ℝ) :
    (SyncedClock.checkForSleep cfg s real).1.offset = s.offset := by
  simp only [SyncedClock.checkForSleep]
  split <;> rfl

lemma checkForSleep_target_eq (cfg : SyncConfig) (s : ClockState) (real : ℝ) :
    (SyncedClock.checkForSleep cfg s real).1.targetOffset = s.targetOffset := by
  simp only [SyncedClock.checkForSleep]
  split <;> rfl

lemma checkForSleep_inv (cfg : SyncConfig) (s : ClockState) (real : ℝ)
    (h : NoPongInv s) : NoPongInv (SyncedClock.checkForSleep cfg s real).1 := by
  obtain ⟨h0, ht, hs⟩ := h
  exact ⟨by rw [checkForSleep_offset_eq, h0], by rw [checkForSleep_target_eq, ht],
    by rw [checkForSleep_state_eq]; exact hs⟩

lemma step_inv (cfg : SyncConfig) (s : ClockState) (e : ClockEv)
    (he : e.isPong = false) (h : NoPongInv s) :
    NoPongInv (SyncedClock.step cfg s e) := by
  cases e with
  | nowCall real =>
    exact now_inv cfg s real h
  | tick a b =>
    rw [SyncedClock.step]
    show NoPongInv (SyncedClock.tick cfg s a b).1
    rw [SyncedClock.tick]
    exact sendPing_inv _ b (applySlew_inv cfg _ (checkForSleep_inv cfg s a h))
  | pong p w pf =>
    rw [ClockEv.isPong] at he
    exact Bool.noConfusion he
  | startCall real =>
    rw [SyncedClock.step]
    show NoPongInv (SyncedClock.start s real).1
    simp only [SyncedClock.start]
    split
    · exact h
    · exact sendPing_inv _ real ⟨h.1, h.2.1, h.2.2⟩
  | stopCall =>
    exact ⟨h.1, h.2.1, h.2.2⟩

lemma run_inv (cfg : SyncConfig) :
    ∀ (evs : List ClockEv) (s : ClockState),
      (∀ e ∈ evs, e.isPong = false) → NoPongInv s →
      NoPongInv (SyncedClock.run cfg s evs) := by
  intro evs
  induction evs with
  | nil =>
    intro s _ h
    exact h
  | cons e evs ih =>
    intro s hall h
    exact ih (SyncedClock.step cfg s e)
      (fun x hx => hall x (List.mem_cons_of_mem e hx))
      (step_inv cfg s e (hall e (List.mem_cons_self e evs)) h)

/-- C10: starting from construction, along any event sequence containing no
pong, the running offset and the target offset both stay `0` (only a pong can
change the target offset), the state stays `UNSYNCED` or `SYNCING`, and a
`now()` call returns exactly the raw `Date.now()` reading clamped below by
the previous return value. -/
theorem syncedClock_unsynced_now_raw (cfg : SyncConfig) (tPerf : ℝ)
    (evs : List ClockEv) (hnp : ∀ e ∈ evs, e.isPong = false) :
    (SyncedClock.run cfg (SyncedClock.init tPerf) evs).offset = 0
  ∧ (SyncedClock.run cfg (SyncedClock.init tPerf) evs).targetOffset = 0
  ∧ ((SyncedClock.run cfg (SyncedClock.init tPerf) evs).state = SyncState.UNSYNCED
      ∨ (SyncedClock.run cfg (SyncedClock.init tPerf) evs).state = SyncState.SYNCING)
  ∧ ∀ real, (SyncedClock.now cfg (SyncedClock.run cfg (SyncedClock.init tPerf) evs) real).1
      = max real (SyncedClock.run cfg (SyncedClock.init tPerf) evs).lastNow := by
  have hinv : NoPongInv (SyncedClock.run cfg (SyncedClock.init tPerf) evs) :=
    run_inv cfg evs (SyncedClock.init tPerf) hnp
      ⟨rfl, rfl, fun hcon => SyncState.noConfusion hcon⟩
  obtain ⟨h0, ht, hs⟩ := hinv
  refine ⟨h0, ht, ?_, ?_⟩
  · cases hst : (SyncedClock.run cfg (SyncedClock.init tPerf) evs).state
    · left; rfl
    · right; rfl
    · exact absurd hst hs
  · intro real
    rw [now_fst_eq_max, now_offset_eq,
      slewTerm_zero cfg _ (by rw [h0, ht]; ring), add_zero, h0, add_zero]

/-- Witness for C10: a fresh clock, then a `now` call, a timer tick and a
`start`, none of which is a pong. -/
theorem syncedClock_unsynced_now_raw_witness :
    (∀ e ∈ [ClockEv.nowCall 1, ClockEv.tick 2 2, ClockEv.startCall 3],
        e.isPong = false)
  ∧ ((SyncedClock.run cfgW (SyncedClock.init 0)
        [ClockEv.nowCall 1, ClockEv.tick 2 2, ClockEv.startCall 3]).offset = 0
    ∧ (SyncedClock.run cfgW (SyncedClock.init 0)
        [ClockEv.nowCall 1, ClockEv.tick 2 2, ClockEv.startCall 3]).targetOffset = 0
    ∧ ((SyncedClock.run cfgW (SyncedClock.init 0)
        [ClockEv.nowCall 1, ClockEv.tick 2 2, ClockEv.startCall 3]).state
          = SyncState.UNSYNCED
      ∨ (SyncedClock.run cfgW (SyncedClock.init 0)
        [ClockEv.nowCall 1, ClockEv.tick 2 2, ClockEv.startCall 3]).state
          = SyncState.SYNCING)
    ∧ ∀ real, (SyncedClock.now cfgW (SyncedClock.run cfgW (SyncedClock.init 0)
        [ClockEv.nowCall 1, ClockEv.tick 2 2, ClockEv.startCall 3]) real).1
        = max real (SyncedClock.run cfgW (SyncedClock.init 0)
            [ClockEv.nowCall 1, ClockEv.tick 2 2, ClockEv.startCall 3]).lastNow) := by
  have hnp : ∀ e ∈ [ClockEv.nowCall 1, ClockEv.tick 2 2, ClockEv.startCall 3],
      e.isPong = false := by
    intro e he
    fin_cases he <;> rfl
  exact ⟨hnp, syncedClock_unsynced_now_raw cfgW 0 _ hnp⟩

/-! ## C8: tick sequence and start() behaviour -/

lemma checkForSleep_msgCounter_eq (cfg : SyncConfig) (s : ClockState) (real : ℝ) :
    (SyncedClock.checkForSleep cfg s real).1.msgCounter = s.msgCounter := by
  simp only [SyncedClock.checkForSleep]
  split <;> rfl

lemma applySlew_msgCounter_eq (cfg : SyncConfig) (s : ClockState) :
    (SyncedClock.applySlew cfg s).msgCounter = s.msgCounter := rfl

lemma sendPing_msgCounter_eq (s : ClockState) (real : ℝ) :
    (SyncedClock.sendPing s real).1.msgCounter = s.msgCounter + 1 := by
  simp only [SyncedClock.sendPing]
  split <;> rfl

lemma sendPing_payload_eq (s : ClockState) (real : ℝ) :
    (SyncedClock.sendPing s real).2 =
      { t0 := real, id := "ping-" ++ toString (s.msgCounter + 1) } := rfl

lemma sendPing_history_eq (s : ClockState) (real : ℝ) :
    (SyncedClock.sendPing s real).1.history = s.history := by
  simp only [SyncedClock.sendPing]
  split <;> rfl

/-- C8 (amended): on each firing of the `syncIntervalMs` timer the engine
performs, in order, sleep-gap detection, one step of the stepped slewer, and
dispatch of a new ping whose payload carries the current local send time and
the monotonically incremented identifier; `start()` (when the clock is not
already running) only records the tick timestamp and immediately dispatches
such a ping — it performs no sleep-gap detection and no slew step. -/
theorem syncedClock_tick_order_and_start (cfg : SyncConfig) (s : ClockState)
    (realA realB t : ℝ) (hrun : s.running = false) :
    (SyncedClock.tick cfg s realA realB =
      ((SyncedClock.sendPing
          (SyncedClock.applySlew cfg (SyncedClock.checkForSleep cfg s realA).1)
          realB).1,
        ((SyncedClock.checkForSleep cfg s realA).2,
          (SyncedClock.sendPing
            (SyncedClock.applySlew cfg (SyncedClock.checkForSleep cfg s realA).1)
            realB).2)))
  ∧ ((SyncedClock.tick cfg s realA realB).2.2.t0 = realB)
  ∧ ((SyncedClock.tick cfg s realA realB).2.2.id
      = "ping-" ++ toString (s.msgCounter + 1))
  ∧ ((SyncedClock.tick cfg s realA realB).1.msgCounter = s.msgCounter + 1)
  ∧ (SyncedClock.start s t =
      ((SyncedClock.sendPing { s with lastIntervalFire := t, running := true } t).1,
        some (SyncedClock.sendPing
          { s with lastIntervalFire := t, running := true } t).2))
  ∧ ((SyncedClock.start s t).1.offset = s.offset)
  ∧ ((SyncedClock.start s t).1.history = s.history)
  ∧ ((SyncedClock.start s t).1.lastIntervalFire = t)
  ∧ ((SyncedClock.start s t).2
      = some { t0 := t, id := "ping-" ++ toString (s.msgCounter + 1) }) := by
  have hstart : SyncedClock.start s t =
      ((SyncedClock.sendPing { s with lastIntervalFire := t, running := true } t).1,
        some (SyncedClock.sendPing
          { s with lastIntervalFire := t, running := true } t).2) := by
    rw [SyncedClock.start, if_neg (by rw [hrun]; exact Bool.false_ne_true)]
  have hcount : (SyncedClock.applySlew cfg
      (SyncedClock.checkForSleep cfg s realA).1).msgCounter = s.msgCounter := by
    rw [applySlew_msgCounter_eq, checkForSleep_msgCounter_eq]
  refine ⟨rfl, rfl, ?_, ?_, hstart, ?_, ?_, ?_, ?_⟩
  · show (SyncedClock.sendPing
        (SyncedClock.applySlew cfg (SyncedClock.checkForSleep cfg s realA).1)
        realB).2.id = "ping-" ++ toString (s.msgCounter + 1)
    rw [sendPing_payload_eq, hcount]
  · show (SyncedClock.sendPing
        (SyncedClock.applySlew cfg (SyncedClock.checkForSleep cfg s realA).1)
        realB).1.msgCounter = s.msgCounter + 1
    rw [sendPing_msgCounter_eq, hcount]
  · rw [hstart]
    exact sendPing_offset_eq _ t
  · rw [hstart]
    exact sendPing_history_eq _ t
  · rw [hstart]
    show (SyncedClock.sendPing { s with lastIntervalFire := t, running := true } t).1.lastIntervalFire = t
    simp only [SyncedClock.sendPing]
    split <;> rfl
  · rw [hstart, sendPing_payload_eq]

/-- Witness for C8 (amended) at a freshly constructed (not running) clock. -/
theorem syncedClock_tick_order_and_start_witness :
    (SyncedClock.init 0).running = false
  ∧ ((SyncedClock.tick cfgW (SyncedClock.init 0) 0 0 =
      ((SyncedClock.sendPing
          (SyncedClock.applySlew cfgW
            (SyncedClock.checkForSleep cfgW (SyncedClock.init 0) 0).1) 0).1,
        ((SyncedClock.checkForSleep cfgW (SyncedClock.init 0) 0).2,
          (SyncedClock.sendPing
            (SyncedClock.applySlew cfgW
              (SyncedClock.checkForSleep cfgW (SyncedClock.init 0) 0).1) 0).2)))
    ∧ ((SyncedClock.tick cfgW (SyncedClock.init 0) 0 0).2.2.t0 = 0)
    ∧ ((SyncedClock.tick cfgW (SyncedClock.init 0) 0 0).2.2.id
        = "ping-" ++ toString ((SyncedClock.init 0).msgCounter + 1))
    ∧ ((SyncedClock.tick cfgW (SyncedClock.init 0) 0 0).1.msgCounter
        = (SyncedClock.init 0).msgCounter + 1)
    ∧ (SyncedClock.start (SyncedClock.init 0) 5 =
        ((SyncedClock.sendPing
            { SyncedClock.init 0 with lastIntervalFire := 5, running := true } 5).1,
          some (SyncedClock.sendPing
            { SyncedClock.init 0 with lastIntervalFire := 5, running := true } 5).2))
    ∧ ((SyncedClock.start (SyncedClock.init 0) 5).1.offset = (SyncedClock.init 0).offset)
    ∧ ((SyncedClock.start (SyncedClock.init 0) 5).1.history = (SyncedClock.init 0).history)
    ∧ ((SyncedClock.start (SyncedClock.init 0) 5).1.lastIntervalFire = 5)
    ∧ ((SyncedClock.start (SyncedClock.init 0) 5).2
        = some { t0 := 5, id := "ping-" ++ toString ((SyncedClock.init 0).msgCounter + 1) })) :=
  ⟨rfl, syncedClock_tick_order_and_start cfgW (SyncedClock.init 0) 0 0 5 rfl⟩

/-- Concrete configuration for the C8 counterexample. -/
noncomputable def cfgC8 : SyncConfig :=
  { syncIntervalMs := 1
    historySize := 10
    outlierThreshold := 2
    timeSlewRate := 1
    driftWarningThreshold := none
    sleepDetectionThresholdMs := none }

/-- Concrete state for the C8 counterexample: a freshly constructed clock
whose target offset has been set to `1`. -/
def sC8 : ClockState :=
  { SyncedClock.init 0 with targetOffset := 1 }

/-- C8 counterexample: at this state, `start()` leaves the running offset at
`0`, while the sleep-check/slew-step/ping sequence the claim says also runs
on `start()` would move the offset to `1` — so `start()` does not perform the
slew step (nor the sleep-gap detection) that the claim attributes to it. -/
theorem syncedClock_start_skips_slew_counterexample :
    (SyncedClock.start sC8 0).1.offset = 0
  ∧ (SyncedClock.applySlew cfgC8 (SyncedClock.checkForSleep cfgC8 sC8 0).1).offset = 1
  ∧ (0 : ℝ) ≠ 1 := by
  refine ⟨?_, ?_, by norm_num⟩
  · rw [SyncedClock.start, if_neg (by exact Bool.false_ne_true)]
    rw [sendPing_offset_eq]
    rfl
  · have hc : SyncedClock.checkForSleep cfgC8 sC8 0 =
        ({ sC8 with lastIntervalFire := 0 }, none) := by
      rw [SyncedClock.checkForSleep, if_neg]
      norm_num [SyncedClock.sleepThreshold, cfgC8, sC8, SyncedClock.init]
    rw [hc]
    simp only [SyncedClock.applySlew, sC8, SyncedClock.init]
    norm_num [Real.sign_one, cfgC8]

/-! ## C1: the outlier-robust estimate -/

/-- The estimate exactly as the specification claim words it: keep the
samples whose RTT deviates from the mean RTT by at most
`outlierThreshold · (population standard deviation of all retained RTTs)`
(keeping every sample when that standard deviation is exactly 0), return the
arithmetic mean of the kept samples' offsets, fall back to the mean offset of
the entire unfiltered history when no sample survives, and return `0` for an
empty history. -/
noncomputable def claimedEstimate (outlierThreshold : ℝ)
    (history : List SyncSample) : ℝ :=
  if history = [] then 0
  else
    let meanRtt := (history.map SyncSample.rtt).sum
      / ((history.map SyncSample.rtt).length : ℝ)
    let sigma := Real.sqrt
      (((history.map SyncSample.rtt).map (fun v => (v - meanRtt) ^ 2)).sum
        / ((history.map SyncSample.rtt).length : ℝ))
    let kept := history.filter fun s =>
      decide (sigma = 0 ∨ |s.rtt - meanRtt| ≤ outlierThreshold * sigma)
    if kept = [] then
      (history.map SyncSample.offset).sum / ((history.map SyncSample.offset).length : ℝ)
    else
      (kept.map SyncSample.offset).sum / ((kept.map SyncSample.offset).length : ℝ)

lemma estimate_final_branch (kept hist : List SyncSample) (hh : hist ≠ []) :
    (if 0 < (kept.map SyncSample.offset).length then
        calculateMean (kept.map SyncSample.offset)
      else calculateMean (hist.map SyncSample.offset)) =
    (if kept = [] then
        (hist.map SyncSample.offset).sum / ((hist.map SyncSample.offset).length : ℝ)
      else
        (kept.map SyncSample.offset).sum / ((kept.map SyncSample.offset).length : ℝ)) := by
  by_cases hk : kept = []
  · rw [if_pos hk, hk]
    simp only [List.map_nil, List.length_nil, lt_irrefl, if_false]
    exact calculateMean_of_ne_nil _ (by simpa using hh)
  · rw [if_neg hk, if_pos (by simpa [List.length_pos] using hk)]
    exact calculateMean_of_ne_nil _ (by simpa using hk)

/-- C1: `getOptimalOffset` computes exactly the estimate described by the
claim (`claimedEstimate`): mean/population-stddev over all retained RTTs,
outlier filter with the stddev-zero escape, mean of surviving offsets,
fallback to the mean offset of the whole window, `0` on empty history. -/
theorem getOptimalOffset_matches_claim (t : ℝ) (history : List SyncSample) :
    FilterEngine.getOptimalOffset t history = claimedEstimate t history := by
  by_cases hh : history = []
  · subst hh
    simp [FilterEngine.getOptimalOffset, claimedEstimate]
  · have hlen : ¬(history.length = 0) := fun hc => hh (List.length_eq_zero.mp hc)
    have hmapr : history.map SyncSample.rtt ≠ [] := by simpa using hh
    have hmean : calculateMean (history.map SyncSample.rtt) =
        (history.map SyncSample.rtt).sum / ((history.map SyncSample.rtt).length : ℝ) :=
      calculateMean_of_ne_nil _ hmapr
    have hsd : calculateStdDev (history.map SyncSample.rtt) =
        Real.sqrt
          (((history.map SyncSample.rtt).map
              (fun v => (v - (history.map SyncSample.rtt).sum
                / ((history.map SyncSample.rtt).length : ℝ)) ^ 2)).sum
            / ((history.map SyncSample.rtt).length : ℝ)) := by
      rw [calculateStdDev_of_ne_nil _ hmapr]
      simp only [hmean]
    simp only [FilterEngine.getOptimalOffset, claimedEstimate, if_neg hlen, if_neg hh,
      hmean, hsd]
    exact estimate_final_branch _ history hh
